/-
Verification of the SMS-API number-allocation and activation-lifecycle core.

The Go source is shallowly embedded: the SQLite store is a record of tables,
each query function of `database/queries.go` becomes a pure function on that
record, and the HTTP handlers of the `handlers` package become functions from
a store and a decoded request to a response and an updated store.

Modelling conventions, recorded once here:
  * `ORDER BY RANDOM() LIMIT 1` is resolved by an extra argument `k : Nat`
    choosing among the matching rows; every row is reachable for some `k`
    and no row is returned exactly when no row matches.
  * `time.Now()` is an explicit argument `now : Nat` (an abstract tick).
  * Goroutines fired by a handler (`go SetNumberAvailable(...)`,
    `go MakeNumberAvailableByActivation(...)`) are sequenced at the end of
    the handler for whole-handler state theorems; the interleaving machine
    `stepAlloc` below exposes them as separate atomic store accesses.
  * Go `float64` sums are pass-through values the core never computes with;
    they are carried as `Rat`.
  * `strings.HasPrefix` / `strings.Contains` are modelled character-exactly
    on the underlying character lists.
-/
import Mathlib

namespace SmsApi

/-! ## Data model (models package, `createTables` schema) -/

structure Country where
  id : Nat
  code : String
  name : String
deriving DecidableEq, Repr

structure Service where
  id : Nat
  code : String
  name : String
deriving DecidableEq, Repr

structure PhoneNumber where
  id : Nat
  number : Nat
  countryId : Nat
  operator : String
  available : Bool
deriving DecidableEq, Repr

structure Activation where
  id : Nat
  numberId : Nat
  serviceId : Nat
  status : Int
  sum : Rat
  createdAt : Nat
  finishedAt : Option Nat
deriving DecidableEq, Repr

structure SMS where
  id : Nat
  activationId : Nat
  text : String
  receivedAt : Nat
deriving DecidableEq, Repr

/-- The SQLite database state: the five tables of `createTables` plus the
AUTOINCREMENT counters for the two tables whose fresh ids the code reads. -/
structure Store where
  countries : List Country
  services : List Service
  phoneNumbers : List PhoneNumber
  activations : List Activation
  smsMessages : List SMS
  nextActivationId : Nat
  nextSmsId : Nat
deriving DecidableEq, Repr

/-! ## String helpers (Go `strings` / `strconv`) -/

/-- Models Go `strings.HasPrefix s pre`: `s` begins with `pre`,
compared character-exactly on the underlying character lists. -/
def strHasPfx (s pre : String) : Bool :=
  pre.data.isPrefixOf s.data

/-- Models Go `strings.Contains s sub`: some suffix of `s` begins with `sub`. -/
def containsSubstr (s sub : String) : Bool :=
  (List.range (s.data.length + 1)).any fun i => sub.data.isPrefixOf (s.data.drop i)

/-- Models Go `strconv.FormatUint(n, 10)`: the decimal digit string. -/
def formatUint (n : Nat) : String :=
  Nat.repr n

/-! ## Query layer (`database/queries.go`) -/

/-- The rows satisfying the WHERE clause of `GetAvailableNumber`:
`JOIN countries c ON pn.country_id = c.id
 WHERE c.code = ? AND pn.operator = ? AND pn.available = TRUE`. -/
def availableMatches (s : Store) (country op : String) : List PhoneNumber :=
  s.phoneNumbers.filter fun pn =>
    (s.countries.any fun c => c.id == pn.countryId && c.code == country)
      && pn.operator == op && pn.available

/-- Embeds `GetAvailableNumber` (queries.go): one row of `availableMatches`, chosen
by `ORDER BY RANDOM() LIMIT 1`; the choice is resolved by `k`.
`none` models the `sql.ErrNoRows` failure when no row matches. -/
def getAvailableNumber (s : Store) (country op : String) (k : Nat) : Option PhoneNumber :=
  (availableMatches s country op)[k % (availableMatches s country op).length]?

/-- Embeds `GetServiceByCode` (queries.go): `SELECT ... FROM services WHERE code = ?`. -/
def getServiceByCode (s : Store) (code : String) : Option Service :=
  s.services.find? fun srv => srv.code == code

/-- Embeds `CreateActivation` (queries.go): INSERT a fresh activation row
(status defaults to 0 per the schema) and return `LastInsertId`. -/
def createActivation (s : Store) (numberId serviceId : Nat) (sum : Rat) (now : Nat) :
    Nat × Store :=
  let aid := s.nextActivationId
  (aid,
    { s with
      activations :=
        s.activations ++ [⟨aid, numberId, serviceId, 0, sum, now, none⟩]
      nextActivationId := aid + 1 })

/-- Embeds `SetNumberAvailable` (queries.go):
`UPDATE phone_numbers SET available = ? WHERE id = ?`. -/
def setNumberAvailable (s : Store) (numberId : Nat) (avail : Bool) : Store :=
  { s with
    phoneNumbers := s.phoneNumbers.map fun pn =>
      if pn.id == numberId then { pn with available := avail } else pn }

/-- Errors surfaced by the query layer. `errNoRows` models `sql.ErrNoRows`,
the distinguished not-found kind; `execFailure` models any other error an
`Exec` could report. -/
inductive DbErr where
  | errNoRows
  | execFailure (msg : String)
deriving DecidableEq, Repr

/-- Embeds `CheckActivationExists` (queries.go):
`SELECT 1 FROM activations WHERE id = ? LIMIT 1`. -/
def checkActivationExists (s : Store) (activationId : Nat) : Bool :=
  s.activations.any fun a => a.id == activationId

/-- Embeds `UpdateActivationStatus` (queries.go):
`UPDATE activations SET status = ?, finished_at = ? WHERE id = ?`, with
`finished_at` set to `time.Now()` unconditionally; when `RowsAffected`
is 0 the function returns `sql.ErrNoRows`. -/
def updateActivationStatus (s : Store) (activationId : Nat) (status : Int) (now : Nat) :
    Except DbErr Store :=
  if checkActivationExists s activationId then
    .ok { s with
          activations := s.activations.map fun a =>
            if a.id == activationId then
              { a with status := status, finishedAt := some now }
            else a }
  else
    .error .errNoRows

/-- Embeds `MakeNumberAvailableByActivation` (queries.go):
`UPDATE phone_numbers SET available = TRUE
 WHERE id = (SELECT number_id FROM activations WHERE id = ?)`;
when the subquery is empty no row is updated. -/
def makeNumberAvailableByActivation (s : Store) (activationId : Nat) : Store :=
  match s.activations.find? (fun a => a.id == activationId) with
  | some a => setNumberAvailable s a.numberId true
  | none => s

/-- Embeds `StoreSMS` (queries.go): INSERT a row into `sms_messages`. -/
def storeSMS (s : Store) (activationId : Nat) (smsText : String) (now : Nat) : Store :=
  { s with
    smsMessages := s.smsMessages ++ [⟨s.nextSmsId, activationId, smsText, now⟩]
    nextSmsId := s.nextSmsId + 1 }

/-! ## Handlers (`handlers` package) -/

structure GetNumberRequest where
  country : String
  service : String
  operator : String
  sum : Rat
  exceptionPhoneSet : List String
deriving DecidableEq, Repr

structure FinishActivationRequest where
  activationId : Nat
  status : Int
deriving DecidableEq, Repr

structure PushSMSRequest where
  activationId : Nat
  sms : String
deriving DecidableEq, Repr

/-- Responses `HandleGetNumber` can send. `dbError` is reachable only through
exec failures, which the pure query embedding does not produce; it is kept so
the response vocabulary matches the source's cached responses. -/
inductive GetNumberResult where
  | success (number : Nat) (activationId : Nat)
  | noNumbers1
  | noNumbers2
  | invalidService
  | dbError
deriving DecidableEq, Repr

/-- Does the candidate number trip the exclusion filter of `HandleGetNumber`?
The source loops over `req.ExceptionPhoneSet` testing
`strings.HasPrefix(strconv.FormatUint(number, 10), prefix)`. -/
def excludedByPfx (req : GetNumberRequest) (number : Nat) : Bool :=
  req.exceptionPhoneSet.any fun p => strHasPfx (formatUint number) p

/-- Embeds `HandleGetNumber` (handlers): select a random available number, apply the
exclusion filter, resolve the service, insert the activation, then mark the
number unavailable (a goroutine in the source, sequenced here at the end). -/
def handleGetNumber (s : Store) (req : GetNumberRequest) (k now : Nat) :
    GetNumberResult × Store :=
  match getAvailableNumber s req.country req.operator k with
  | none => (.noNumbers1, s)
  | some pn =>
    if excludedByPfx req pn.number then
      (.noNumbers2, s)
    else
      match getServiceByCode s req.service with
      | none => (.invalidService, s)
      | some srv =>
        let (aid, s1) := createActivation s pn.id srv.id req.sum now
        let s2 := setNumberAvailable s1 pn.id false
        (.success pn.number aid, s2)

/-- Responses `HandleFinishActivation` can send. Any failure of
`UpdateActivationStatus`, including `sql.ErrNoRows`, is surfaced by the
handler as the cached `DATABASE_ERROR` response. -/
inductive FinishResult where
  | success
  | dbError
deriving DecidableEq, Repr

/-- Embeds `HandleFinishActivation` (handlers): update the activation's status and
timestamp; when the requested status is 3, release the bound number back to
the pool (a goroutine in the source, sequenced here at the end). -/
def handleFinishActivation (s : Store) (req : FinishActivationRequest) (now : Nat) :
    FinishResult × Store :=
  match updateActivationStatus s req.activationId req.status now with
  | .error _ => (.dbError, s)
  | .ok s1 =>
    let s2 :=
      if req.status == 3 then makeNumberAvailableByActivation s1 req.activationId
      else s1
    (.success, s2)

/-- Responses `HandlePushSMS` can send. -/
inductive PushResult where
  | success
  | activationNotFound
deriving DecidableEq, Repr

/-- Embeds `HandlePushSMS` (handlers): the existence check runs synchronously; only
when it passes is the SMS insert scheduled (a goroutine in the source,
sequenced here before the response). -/
def handlePushSMS (s : Store) (req : PushSMSRequest) (now : Nat) :
    PushResult × Store :=
  if checkActivationExists s req.activationId then
    (.success, storeSMS s req.activationId req.sms now)
  else
    (.activationNotFound, s)

/-! ## Retry executor (`database/database.go`, `ExecuteWithRetry`)

The outcome of each underlying `db.ExecContext` attempt is resolved by an
oracle mapping the attempt index to `none` (success) or `some msg` (the
error message the store reported on that attempt). -/

/-- Embeds `maxRetries` constant of `ExecuteWithRetry`. -/
def maxRetries : Nat := 5

/-- Embeds `baseDelay` constant of `ExecuteWithRetry`, in milliseconds. -/
def baseDelayMs : Nat := 100

/-- Embeds `isRetryableError` (database.go): the error message marks transient
lock contention. -/
def isRetryableError (msg : String) : Bool :=
  containsSubstr msg "database is locked" || containsSubstr msg "SQLITE_BUSY"
    || containsSubstr msg "database table is locked"

/-- How `ExecuteWithRetry` finishes: all-good, a permanent error surfaced
untouched, or `database locked after 5 attempts` once the ceiling is hit. -/
inductive RetryOutcome where
  | ok
  | permanentFailure (msg : String)
  | lockedAfterMax
deriving DecidableEq, Repr

/-- The retry loop of `ExecuteWithRetry`, together with the list of backoff
delays slept (`baseDelay * 2^attempt` before each re-attempt). `fuel` counts
the remaining iterations of `for attempt := 0; attempt < maxRetries`. -/
def execRetryAux (oracle : Nat → Option String) :
    Nat → Nat → List Nat → RetryOutcome × List Nat
  | 0, _, delays => (.lockedAfterMax, delays)
  | fuel + 1, attempt, delays =>
    match oracle attempt with
    | none => (.ok, delays)
    | some msg =>
      if isRetryableError msg then
        if attempt + 1 < maxRetries then
          execRetryAux oracle fuel (attempt + 1) (delays ++ [baseDelayMs * 2 ^ attempt])
        else
          (.lockedAfterMax, delays)
      else
        (.permanentFailure msg, delays)

/-- Embeds `ExecuteWithRetry` (database.go): up to `maxRetries` attempts with
exponential backoff between them. In the source it is invoked only by
`createTables` and the seeding helpers. -/
def executeWithRetry (oracle : Nat → Option String) : RetryOutcome × List Nat :=
  execRetryAux oracle maxRetries 0 []

/-- Embeds `CreateActivation` (queries.go) as actually written: a single bare
`db.Exec` INSERT with no retry wrapper, so only the oracle's attempt-0
outcome is ever consulted. -/
def createActivationExec (oracle : Nat → Option String) (s : Store)
    (numberId serviceId : Nat) (sum : Rat) (now : Nat) :
    Except String (Nat × Store) :=
  match oracle 0 with
  | some msg => .error msg
  | none => .ok (createActivation s numberId serviceId sum now)

/-! ## Interleaving semantics for concurrent `HandleGetNumber` calls

Each in-flight allocation is a process whose atomic units are its individual
store accesses, exactly as issued by `HandleGetNumber`: (0) the
`GetAvailableNumber` select (the in-memory exclusion filter runs inside this
unit, it touches no store state), (1) the `GetServiceByCode` select, (2) the
`CreateActivation` insert — the success response carries the number and the
fresh activation id from here, (3) the `SetNumberAvailable(false)` update,
which the source fires on a goroutine after responding. A schedule is the
order in which the scheduler lets the processes take their next unit. -/

structure AllocProc where
  req : GetNumberRequest
  /-- resolution of this process's `ORDER BY RANDOM()` choice -/
  k : Nat
  /-- program counter: 0 select, 1 service, 2 insert, 3 mark, 4 done -/
  pc : Nat
  candidate : Option PhoneNumber
  sid : Option Nat
  result : Option GetNumberResult
deriving DecidableEq, Repr

/-- A fresh process for one `HandleGetNumber` call. -/
def mkAllocProc (req : GetNumberRequest) (k : Nat) : AllocProc :=
  ⟨req, k, 0, none, none, none⟩

/-- One atomic store access of an in-flight `HandleGetNumber` call. -/
def stepAlloc (now : Nat) (s : Store) (p : AllocProc) : Store × AllocProc :=
  match p.pc with
  | 0 =>
    match getAvailableNumber s p.req.country p.req.operator p.k with
    | none => (s, { p with pc := 4, result := some .noNumbers1 })
    | some pn =>
      if excludedByPfx p.req pn.number then
        (s, { p with pc := 4, result := some .noNumbers2 })
      else
        (s, { p with pc := 1, candidate := some pn })
  | 1 =>
    match getServiceByCode s p.req.service with
    | none => (s, { p with pc := 4, result := some .invalidService })
    | some srv => (s, { p with pc := 2, sid := some srv.id })
  | 2 =>
    match p.candidate, p.sid with
    | some pn, some sid =>
      let (aid, s1) := createActivation s pn.id sid p.req.sum now
      (s1, { p with pc := 3, result := some (.success pn.number aid) })
    | _, _ => (s, { p with pc := 4 })
  | 3 =>
    match p.candidate with
    | some pn => (setNumberAvailable s pn.id false, { p with pc := 4 })
    | none => (s, { p with pc := 4 })
  | _ => (s, p)

/-- Run a schedule: each entry names the process that takes its next
atomic store access. -/
def runSchedule (now : Nat) : Store → List AllocProc → List Nat →
    Store × List AllocProc
  | s, ps, [] => (s, ps)
  | s, ps, i :: rest =>
    match ps[i]? with
    | none => runSchedule now s ps rest
    | some p =>
      let (s', p') := stepAlloc now s p
      runSchedule now s' (ps.set i p') rest

/-! ## Wire statuses

The status strings of the handlers' cached JSON responses
(`cachedResponses` in the handlers package). -/

/-- Status string `HandleGetNumber` sends for each outcome. -/
def GetNumberResult.status : GetNumberResult → String
  | .success _ _ => "SUCCESS"
  | .noNumbers1 => "NO_NUMBERS1"
  | .noNumbers2 => "NO_NUMBERS2"
  | .invalidService => "INVALID_SERVICE"
  | .dbError => "DATABASE_ERROR"

/-- Status string `HandleFinishActivation` sends for each outcome. -/
def FinishResult.status : FinishResult → String
  | .success => "SUCCESS"
  | .dbError => "DATABASE_ERROR"

/-- Status string `HandlePushSMS` sends for each outcome. -/
def PushResult.status : PushResult → String
  | .success => "SUCCESS"
  | .activationNotFound => "ACTIVATION_NOT_FOUND"

/-! ## Concrete fixtures -/

/-- A one-country, one-service pool with a single available number
(country and service codes from `DefaultSeedData`). -/
def demoStore : Store :=
  { countries := [⟨1, "rus", "Russia"⟩]
    services := [⟨1, "tg", "Telegram"⟩]
    phoneNumbers := [⟨1, 79000000001, 1, "any", true⟩]
    activations := []
    smsMessages := []
    nextActivationId := 1
    nextSmsId := 1 }

/-- The GET_NUMBER request of the spec's §8 scenario: rus / any / tg, sum 20. -/
def demoReq : GetNumberRequest := ⟨"rus", "tg", "any", 20, []⟩

/-- The demo pool after one successful allocation: activation 1 (status 0,
`finished_at` NULL) holds phone number row 1. -/
def allocStore : Store := (handleGetNumber demoStore demoReq 0 0).snd

/-- The demo pool holding instead the spec's worked example number
`79157891133`. -/
def exampleStore : Store :=
  { demoStore with phoneNumbers := [⟨1, 79157891133, 1, "any", true⟩] }

/-- An exec oracle whose first attempt reports SQLite lock contention and
whose later attempts succeed: the canonical transient failure. -/
def busyOnce : Nat → Option String :=
  fun n => if n == 0 then some "database is locked" else none

/-- The GET_NUMBER request naming a service code absent from the demo pool. -/
def demoReqVk : GetNumberRequest := ⟨"rus", "vk", "any", 20, []⟩

/-- The GET_NUMBER request of the spec's exclusion example: prefix list
carrying the matching prefix 791. -/
def demoReq791 : GetNumberRequest := ⟨"rus", "tg", "any", 20, ["791"]⟩

/-! ## Helper lemmas -/

/-- The number release touches only the `phone_numbers` table. -/
theorem makeNumberAvailable_activations (s : Store) (aid : Nat) :
    (makeNumberAvailableByActivation s aid).activations = s.activations := by
  unfold makeNumberAvailableByActivation
  cases s.activations.find? (fun a => a.id == aid) <;> rfl

/-- The number release leaves the `countries` table alone. -/
theorem makeNumberAvailable_countries (s : Store) (aid : Nat) :
    (makeNumberAvailableByActivation s aid).countries = s.countries := by
  unfold makeNumberAvailableByActivation
  cases s.activations.find? (fun a => a.id == aid) <;> rfl

/-- Unfolding of `HandleFinishActivation` on the success path: the update
maps the matching activation row, then status 3 triggers the release. -/
theorem handleFinishActivation_ok (s : Store) (req : FinishActivationRequest) (now : Nat)
    (h : checkActivationExists s req.activationId = true) :
    handleFinishActivation s req now =
      (.success,
        if req.status == 3 then
          makeNumberAvailableByActivation
            { s with activations := s.activations.map fun a =>
                if a.id == req.activationId then
                  { a with status := req.status, finishedAt := some now }
                else a }
            req.activationId
        else
          { s with activations := s.activations.map fun a =>
              if a.id == req.activationId then
                { a with status := req.status, finishedAt := some now }
              else a }) := by
  simp [handleFinishActivation, updateActivationStatus, h]

/-- On the success path the resulting `activations` table is the pointwise
update of the original one, whatever the requested status. -/
theorem handleFinishActivation_ok_activations (s : Store) (req : FinishActivationRequest)
    (now : Nat) (h : checkActivationExists s req.activationId = true) :
    (handleFinishActivation s req now).fst = .success ∧
    (handleFinishActivation s req now).snd.activations =
      s.activations.map fun a =>
        if a.id == req.activationId then
          { a with status := req.status, finishedAt := some now }
        else a := by
  rw [handleFinishActivation_ok s req now h]
  refine ⟨rfl, ?_⟩
  cases hb : (req.status == 3) with
  | true => simp [makeNumberAvailable_activations]
  | false => simp

/-- The empty string is a prefix of every decimal string, as
`strings.HasPrefix` computes it. -/
theorem strHasPfx_empty (s : String) : strHasPfx s "" = true := by
  simp [strHasPfx, List.isPrefixOf]

/-- Reduction of `HandleGetNumber` when the availability select finds
no row. -/
theorem handleGetNumber_none (s : Store) (req : GetNumberRequest) (k now : Nat)
    (hsel : getAvailableNumber s req.country req.operator k = none) :
    handleGetNumber s req k now = (.noNumbers1, s) := by
  unfold handleGetNumber
  rw [hsel]

/-- Reduction of `HandleGetNumber` when the availability select returns a
candidate row. -/
theorem handleGetNumber_some (s : Store) (req : GetNumberRequest) (k now : Nat)
    (pn : PhoneNumber)
    (hsel : getAvailableNumber s req.country req.operator k = some pn) :
    handleGetNumber s req k now =
      (if excludedByPfx req pn.number then (.noNumbers2, s)
        else
          match getServiceByCode s req.service with
          | none => (.invalidService, s)
          | some srv =>
            (.success pn.number (createActivation s pn.id srv.id req.sum now).fst,
              setNumberAvailable (createActivation s pn.id srv.id req.sum now).snd
                pn.id false)) := by
  unfold handleGetNumber
  rw [hsel]

/-- Every row of the pool is reachable by some resolution of the
`ORDER BY RANDOM()` choice. -/
theorem getAvailableNumber_of_mem {s : Store} {c op : String} {q : PhoneNumber}
    (hq : q ∈ availableMatches s c op) :
    ∃ k, getAvailableNumber s c op k = some q := by
  obtain ⟨n, hn, he⟩ := List.mem_iff_getElem.mp hq
  refine ⟨n, ?_⟩
  unfold getAvailableNumber
  rw [Nat.mod_eq_of_lt hn, List.getElem?_eq_getElem hn, he]

/-! ## Claims -/

/-- Claim C2 counterexample: against a store with no activation row 1,
the FINISH_ACTIVATION operation answers with the DATABASE_ERROR status —
identical to a generic store failure — not with ACTIVATION_NOT_FOUND,
although that cached response exists in the handlers package. -/
theorem finish_missing_surfaces_dbError_cex :
    (handleFinishActivation demoStore ⟨1, 3⟩ 0).fst.status = "DATABASE_ERROR" ∧
    (handleFinishActivation demoStore ⟨1, 3⟩ 0).fst.status ≠ "ACTIVATION_NOT_FOUND" := by
  decide

/-- Claim C2 (amended): when no activation row matches,
`UpdateActivationStatus` fails with the distinguished not-found error
(`sql.ErrNoRows`) and with no other error, but `HandleFinishActivation`
surfaces that failure as its generic DATABASE_ERROR response. -/
theorem finish_missing_errNoRows_surfaced_as_dbError (s : Store)
    (req : FinishActivationRequest) (now : Nat)
    (h : checkActivationExists s req.activationId = false) :
    updateActivationStatus s req.activationId req.status now = .error .errNoRows ∧
    handleFinishActivation s req now = (.dbError, s) := by
  constructor
  · simp [updateActivationStatus, h]
  · simp [handleFinishActivation, updateActivationStatus, h]

/-- Witness for the amended claim C2 at a concrete missing id. -/
theorem finish_missing_errNoRows_surfaced_as_dbError_witness :
    checkActivationExists demoStore 1 = false ∧
    (updateActivationStatus demoStore 1 3 0 = .error .errNoRows ∧
      handleFinishActivation demoStore ⟨1, 3⟩ 0 = (.dbError, demoStore)) :=
  ⟨by decide, finish_missing_errNoRows_surfaced_as_dbError demoStore ⟨1, 3⟩ 0 (by decide)⟩

/-- Claim C8: a PUSH_SMS call naming a non-existent activation id answers
ACTIVATION_NOT_FOUND and leaves the store — in particular the
`sms_messages` table — untouched; the existence check runs synchronously
before the insert is scheduled, so no row is ever written. -/
theorem pushSMS_missing_activation (s : Store) (req : PushSMSRequest) (now : Nat)
    (h : checkActivationExists s req.activationId = false) :
    handlePushSMS s req now = (.activationNotFound, s) ∧
    (handlePushSMS s req now).fst.status = "ACTIVATION_NOT_FOUND" ∧
    (handlePushSMS s req now).snd.smsMessages = s.smsMessages := by
  have hm : handlePushSMS s req now = (.activationNotFound, s) := by
    simp [handlePushSMS, h]
  exact ⟨hm, by rw [hm]; rfl, by rw [hm]⟩

/-- Witness for claim C8 at a concrete missing activation id. -/
theorem pushSMS_missing_activation_witness :
    checkActivationExists demoStore 7 = false ∧
    (handlePushSMS demoStore ⟨7, "Your code: 123456"⟩ 0 = (.activationNotFound, demoStore) ∧
      (handlePushSMS demoStore ⟨7, "Your code: 123456"⟩ 0).fst.status = "ACTIVATION_NOT_FOUND" ∧
      (handlePushSMS demoStore ⟨7, "Your code: 123456"⟩ 0).snd.smsMessages
        = demoStore.smsMessages) :=
  ⟨by decide, pushSMS_missing_activation demoStore ⟨7, "Your code: 123456"⟩ 0 (by decide)⟩

/-- Claim C10: when the exclusion list contains the empty string, every
candidate number is rejected — every decimal string has the empty string as
a prefix — so the call answers NO_NUMBERS2 whenever a candidate exists,
NO_NUMBERS1 otherwise, and can never answer SUCCESS. -/
theorem empty_exclusion_never_allocates (s : Store) (req : GetNumberRequest) (k now : Nat)
    (h : "" ∈ req.exceptionPhoneSet) :
    (handleGetNumber s req k now).fst =
      (match getAvailableNumber s req.country req.operator k with
        | some _ => GetNumberResult.noNumbers2
        | none => GetNumberResult.noNumbers1) ∧
    ∀ n aid, (handleGetNumber s req k now).fst ≠ .success n aid := by
  have hex : ∀ m : Nat, excludedByPfx req m = true := by
    intro m
    unfold excludedByPfx
    rw [List.any_eq_true]
    exact ⟨"", h, strHasPfx_empty (formatUint m)⟩
  cases hsel : getAvailableNumber s req.country req.operator k with
  | none => rw [handleGetNumber_none s req k now hsel]; simp
  | some pn => rw [handleGetNumber_some s req k now pn hsel]; simp [hex pn.number]

/-- Witness for claim C10: the demo pool has an available number, yet a
caller whose exclusion list contains the empty string gets NO_NUMBERS2. -/
theorem empty_exclusion_never_allocates_witness :
    "" ∈ ["7918", ""] ∧
    ((handleGetNumber demoStore ⟨"rus", "tg", "any", 20, ["7918", ""]⟩ 0 0).fst =
      (match getAvailableNumber demoStore "rus" "any" 0 with
        | some _ => GetNumberResult.noNumbers2
        | none => GetNumberResult.noNumbers1) ∧
      ∀ n aid,
        (handleGetNumber demoStore ⟨"rus", "tg", "any", 20, ["7918", ""]⟩ 0 0).fst
          ≠ .success n aid) :=
  ⟨by decide,
    empty_exclusion_never_allocates demoStore ⟨"rus", "tg", "any", 20, ["7918", ""]⟩ 0 0
      (by decide)⟩

/-- Claim C3: a GET_NUMBER call whose service code resolves to no Service
row never creates an activation — the whole store is returned unchanged on
every failure path — and, whenever a candidate number was selected and
passed the exclusion filter, the call fails with the INVALID_SERVICE
(UnknownService) outcome: the service resolution precedes the insert. -/
theorem allocate_unknown_service (s : Store) (req : GetNumberRequest) (k now : Nat)
    (hserv : getServiceByCode s req.service = none) :
    (handleGetNumber s req k now).snd = s ∧
    ∀ pn, getAvailableNumber s req.country req.operator k = some pn →
      excludedByPfx req pn.number = false →
      (handleGetNumber s req k now).fst = .invalidService := by
  cases hsel : getAvailableNumber s req.country req.operator k with
  | none =>
    rw [handleGetNumber_none s req k now hsel]
    refine ⟨rfl, ?_⟩
    intro pn hpn
    cases hpn
  | some pn =>
    rw [handleGetNumber_some s req k now pn hsel]
    cases hex : excludedByPfx req pn.number with
    | true =>
      refine ⟨by simp, ?_⟩
      intro pn' hpn' hf
      cases Option.some.inj hpn'
      rw [hex] at hf
      cases hf
    | false =>
      simp [hserv, hex]

/-- Witness for claim C3: requesting the unknown service code vk against
the demo pool. -/
theorem allocate_unknown_service_witness :
    getServiceByCode demoStore "vk" = none ∧
    ((handleGetNumber demoStore demoReqVk 0 0).snd = demoStore ∧
      ∀ pn, getAvailableNumber demoStore "rus" "any" 0 = some pn →
        excludedByPfx demoReqVk pn.number = false →
        (handleGetNumber demoStore demoReqVk 0 0).fst = .invalidService) :=
  ⟨by decide, allocate_unknown_service demoStore demoReqVk 0 0 (by decide)⟩

/-- Claim C5: every FINISH_ACTIVATION call matching an existing activation
succeeds, sets that activation's status to the supplied value and its
`finished_at` to the current time — unconditionally, the supplied status
being terminal or not (the statement quantifies over every `req.status`). -/
theorem finish_updates_status_and_timestamp (s : Store) (req : FinishActivationRequest)
    (now : Nat) (h : checkActivationExists s req.activationId = true) :
    (handleFinishActivation s req now).fst = .success ∧
    (∃ a ∈ (handleFinishActivation s req now).snd.activations,
      a.id = req.activationId ∧ a.status = req.status ∧ a.finishedAt = some now) ∧
    (∀ a ∈ (handleFinishActivation s req now).snd.activations,
      a.id = req.activationId → a.status = req.status ∧ a.finishedAt = some now) := by
  obtain ⟨hfst, hact⟩ := handleFinishActivation_ok_activations s req now h
  refine ⟨hfst, ?_, ?_⟩
  · obtain ⟨a, ha, hbeq⟩ := List.any_eq_true.mp h
    have haid : a.id = req.activationId := by simpa using hbeq
    refine ⟨{ a with status := req.status, finishedAt := some now }, ?_, haid, rfl, rfl⟩
    rw [hact]
    have hmem := List.mem_map_of_mem
      (f := fun a : Activation =>
        if a.id == req.activationId then
          { a with status := req.status, finishedAt := some now }
        else a) ha
    simpa [hbeq] using hmem
  · intro b hb hbid
    rw [hact] at hb
    obtain ⟨a, _, hba⟩ := List.mem_map.mp hb
    by_cases hc : a.id = req.activationId
    · rw [if_pos (by simpa using hc)] at hba
      rw [← hba]
      exact ⟨rfl, rfl⟩
    · rw [if_neg (by simpa using hc)] at hba
      rw [← hba] at hbid
      exact absurd hbid hc

/-- Witness for claim C5: finishing activation 1 of the allocated demo pool
with the non-terminal status 1 still stamps `finished_at`. -/
theorem finish_updates_status_and_timestamp_witness :
    checkActivationExists allocStore 1 = true ∧
    ((handleFinishActivation allocStore ⟨1, 1⟩ 5).fst = .success ∧
      (∃ a ∈ (handleFinishActivation allocStore ⟨1, 1⟩ 5).snd.activations,
        a.id = 1 ∧ a.status = 1 ∧ a.finishedAt = some 5) ∧
      (∀ a ∈ (handleFinishActivation allocStore ⟨1, 1⟩ 5).snd.activations,
        a.id = 1 → a.status = 1 ∧ a.finishedAt = some 5)) :=
  ⟨by decide, finish_updates_status_and_timestamp allocStore ⟨1, 1⟩ 5 (by decide)⟩

/-- Claim C7: with a candidate selected and a non-empty exclusion list, the
call is rejected with NO_NUMBERS2 exactly when some listed prefix starts
the candidate's full decimal digit string, and a rejected call returns the
store unchanged — the engine consults no second candidate in-request. -/
theorem exclusion_rejects_iff (s : Store) (req : GetNumberRequest) (k now : Nat)
    (pn : PhoneNumber) (_hne : req.exceptionPhoneSet ≠ [])
    (hsel : getAvailableNumber s req.country req.operator k = some pn) :
    ((handleGetNumber s req k now).fst = .noNumbers2 ↔
      ∃ p ∈ req.exceptionPhoneSet, strHasPfx (formatUint pn.number) p = true) ∧
    ((∃ p ∈ req.exceptionPhoneSet, strHasPfx (formatUint pn.number) p = true) →
      handleGetNumber s req k now = (.noNumbers2, s)) := by
  have hiff : excludedByPfx req pn.number = true ↔
      ∃ p ∈ req.exceptionPhoneSet, strHasPfx (formatUint pn.number) p = true := by
    unfold excludedByPfx
    rw [List.any_eq_true]
  rw [handleGetNumber_some s req k now pn hsel]
  cases hex : excludedByPfx req pn.number with
  | true =>
    exact ⟨⟨fun _ => hiff.mp hex, fun _ => by simp⟩, fun _ => by simp⟩
  | false =>
    have hnex : ¬ ∃ p ∈ req.exceptionPhoneSet, strHasPfx (formatUint pn.number) p = true := by
      intro hcon
      rw [← hiff] at hcon
      rw [hex] at hcon
      cases hcon
    refine ⟨⟨?_, fun hcon => absurd hcon hnex⟩, fun hcon => absurd hcon hnex⟩
    intro hfst
    rw [if_neg (by simp)] at hfst
    cases hs : getServiceByCode s req.service with
    | none => rw [hs] at hfst; simp at hfst
    | some srv => rw [hs] at hfst; simp at hfst

/-- Witness for claim C7: the spec's worked example — number 79157891133 is
rejected by the listed prefix 791. -/
theorem exclusion_rejects_iff_witness :
    demoReq791.exceptionPhoneSet ≠ [] ∧
    getAvailableNumber exampleStore "rus" "any" 0 = some ⟨1, 79157891133, 1, "any", true⟩ ∧
    (((handleGetNumber exampleStore demoReq791 0 0).fst = .noNumbers2 ↔
        ∃ p ∈ demoReq791.exceptionPhoneSet,
          strHasPfx (formatUint 79157891133) p = true) ∧
      ((∃ p ∈ demoReq791.exceptionPhoneSet,
          strHasPfx (formatUint 79157891133) p = true) →
        handleGetNumber exampleStore demoReq791 0 0 = (.noNumbers2, exampleStore))) :=
  ⟨by decide, by decide,
    exclusion_rejects_iff exampleStore demoReq791 0 0 ⟨1, 79157891133, 1, "any", true⟩
      (by decide) (by decide)⟩

/-- Sanity check of the interleaving machine: a process scheduled alone for
its four atomic units computes exactly what `HandleGetNumber` computes. -/
theorem runSchedule_solo (s : Store) (req : GetNumberRequest) (k now : Nat) :
    (runSchedule now s [mkAllocProc req k] [0, 0, 0, 0]).fst =
      (handleGetNumber s req k now).snd ∧
    ((runSchedule now s [mkAllocProc req k] [0, 0, 0, 0]).snd.map fun p => p.result) =
      [some (handleGetNumber s req k now).fst] := by
  cases hsel : getAvailableNumber s req.country req.operator k with
  | none =>
    rw [handleGetNumber_none s req k now hsel]
    simp [runSchedule, stepAlloc, mkAllocProc, hsel]
  | some pn =>
    rw [handleGetNumber_some s req k now pn hsel]
    cases hex : excludedByPfx req pn.number with
    | true => simp [runSchedule, stepAlloc, mkAllocProc, hsel, hex]
    | false =>
      cases hs : getServiceByCode s req.service with
      | none => simp [runSchedule, stepAlloc, mkAllocProc, hsel, hex, hs]
      | some srv => simp [runSchedule, stepAlloc, mkAllocProc, hsel, hex, hs]

/-- Claim C1: the select-then-mark race. Against a pool holding exactly one
available rus/any number, two concurrent GET_NUMBER calls whose
availability selects are both scheduled before either availability mark
both succeed, both returning the single number 79000000001 (with
activation ids 1 and 2): 2 successes where the claim demands exactly 1
success and 1 NO_NUMBERS failure, and the same number is handed out twice. -/
theorem concurrent_allocate_double_allocation :
    (availableMatches demoStore "rus" "any").length = 1 ∧
    ((runSchedule 0 demoStore [mkAllocProc demoReq 0, mkAllocProc demoReq 0]
        [0, 1, 0, 0, 0, 1, 1, 1]).snd.map fun p => p.result) =
      [some (.success 79000000001 1), some (.success 79000000001 2)] ∧
    ((runSchedule 0 demoStore [mkAllocProc demoReq 0, mkAllocProc demoReq 0]
        [0, 1, 0, 0, 0, 1, 1, 1]).fst.activations.map fun a => a.numberId) = [1, 1] := by
  decide

/-- Claim C4: the finished-iff-terminal invariant fails on a reachable
state. Allocating from the demo pool creates activation 1 with status 0 and
NULL `finished_at`; finishing it with the non-terminal status 1 leaves a
row whose status is not 3 yet whose `finished_at` is stamped. -/
theorem nonterminal_finish_sets_finished_at :
    (handleFinishActivation allocStore ⟨1, 1⟩ 5).fst = .success ∧
    (∃ a ∈ (handleFinishActivation allocStore ⟨1, 1⟩ 5).snd.activations,
      a.status ≠ 3 ∧ a.finishedAt = some 5) := by
  decide

/-- Claim C9 counterexample: the activation insert is NOT executed through
the retry executor. On an exec oracle whose first attempt reports the
transient `database is locked` and whose retry would succeed, the retry
executor finishes OK after one backoff sleep — but `CreateActivation`,
being a single bare `db.Exec`, fails outright on the same oracle. -/
theorem createActivation_not_wrapped_cex :
    (executeWithRetry busyOnce).fst = .ok ∧
    createActivationExec busyOnce demoStore 1 1 20 0 = .error "database is locked" :=
  ⟨by decide, rfl⟩

/-- Claim C9 (amended): the retry executor itself has exactly the claimed
semantics — permanent failures surface immediately with no backoff sleeps,
an all-transient oracle is retried with base-100ms delays doubling each
attempt (100, 200, 400, 800) before the 5-attempt ceiling surfaces the
locked/StoreBusy outcome, and a single transient failure is absorbed — but
it wraps only schema creation and seeding: the core's activation insert is
a bare exec that fails on the first transient error. -/
theorem retry_semantics_and_unwrapped_insert :
    (∀ msg, isRetryableError msg = false →
      executeWithRetry (fun _ => some msg) = (.permanentFailure msg, [])) ∧
    executeWithRetry (fun _ => some "database is locked") =
      (.lockedAfterMax, [100, 200, 400, 800]) ∧
    executeWithRetry busyOnce = (.ok, [100]) ∧
    (∀ s : Store, ∀ numberId serviceId : Nat, ∀ sum : Rat, ∀ now : Nat,
      createActivationExec busyOnce s numberId serviceId sum now =
        .error "database is locked") := by
  refine ⟨?_, by decide, by decide, ?_⟩
  · intro msg hmsg
    simp [executeWithRetry, execRetryAux, hmsg]
  · intro s numberId serviceId sum now
    rfl

/-- Witness for the amended claim C9: a constraint violation is classified
permanent and surfaces untouched with no retries. -/
theorem retry_semantics_and_unwrapped_insert_witness :
    isRetryableError "UNIQUE constraint failed" = false ∧
    executeWithRetry (fun _ => some "UNIQUE constraint failed") =
      (.permanentFailure "UNIQUE constraint failed", []) :=
  ⟨by decide,
    retry_semantics_and_unwrapped_insert.1 "UNIQUE constraint failed" (by decide)⟩

/-- Claim C6: finishing an existing activation with the terminal status 3
succeeds and releases the bound number — afterwards every pool row carrying
that activation's `number_id` has `available = true`, and some resolution
of the random choice lets a subsequent GET_NUMBER for the number's
country/operator return that very number — while finishing with any
non-terminal status leaves the `phone_numbers` table untouched. -/
theorem terminal_finish_releases_number (s : Store) (aid now : Nat) (a : Activation)
    (hfind : s.activations.find? (fun x => x.id == aid) = some a) :
    (handleFinishActivation s ⟨aid, 3⟩ now).fst = .success ∧
    (∀ q ∈ (handleFinishActivation s ⟨aid, 3⟩ now).snd.phoneNumbers,
      q.id = a.numberId → q.available = true) ∧
    (∀ pn ∈ s.phoneNumbers, pn.id = a.numberId →
      ∀ c ∈ s.countries, c.id = pn.countryId →
        ∃ k q, getAvailableNumber (handleFinishActivation s ⟨aid, 3⟩ now).snd
            c.code pn.operator k = some q ∧ q.id = pn.id ∧ q.number = pn.number) ∧
    (∀ st : Int, st ≠ 3 →
      (handleFinishActivation s ⟨aid, st⟩ now).snd.phoneNumbers = s.phoneNumbers) := by
  have hdec : (a.id == aid) = true :=
    List.find?_some (p := fun x : Activation => x.id == aid) hfind
  have hmem : a ∈ s.activations := List.mem_of_find?_eq_some hfind
  have hcheck : checkActivationExists s aid = true := by
    unfold checkActivationExists
    exact List.any_eq_true.mpr ⟨a, hmem, hdec⟩
  have hfind' :
      ((s.activations.map fun x =>
          if x.id == aid then { x with status := (3 : Int), finishedAt := some now }
          else x).find? fun x => x.id == aid) =
        some (if a.id == aid then { a with status := (3 : Int), finishedAt := some now }
          else a) := by
    rw [List.find?_map]
    have hcomp :
        ((fun x : Activation => x.id == aid) ∘ fun x : Activation =>
            if x.id == aid then { x with status := (3 : Int), finishedAt := some now }
            else x) =
          fun x : Activation => x.id == aid := by
      funext x
      by_cases hx : (x.id == aid) = true
      · simp only [Function.comp_apply, if_pos hx]
      · simp only [Function.comp_apply, if_neg hx]
    rw [hcomp, hfind]
    rfl
  have hok : handleFinishActivation s ⟨aid, 3⟩ now =
      (.success,
        makeNumberAvailableByActivation
          { s with activations := s.activations.map fun x =>
              if x.id == aid then { x with status := (3 : Int), finishedAt := some now }
              else x }
          aid) := by
    rw [handleFinishActivation_ok s ⟨aid, 3⟩ now hcheck]
    rw [if_pos (by decide : (((3 : Int)) == 3) = true)]
  have hrel : makeNumberAvailableByActivation
      { s with activations := s.activations.map fun x =>
          if x.id == aid then { x with status := (3 : Int), finishedAt := some now }
          else x }
      aid =
      setNumberAvailable
        { s with activations := s.activations.map fun x =>
            if x.id == aid then { x with status := (3 : Int), finishedAt := some now }
            else x }
        a.numberId true := by
    unfold makeNumberAvailableByActivation
    simp only [hfind']
    rw [if_pos hdec]
  refine ⟨by rw [hok], ?_, ?_, ?_⟩
  · intro q hq hqid
    rw [hok] at hq
    simp only [hrel, setNumberAvailable] at hq
    obtain ⟨p0, _, hpq⟩ := List.mem_map.mp hq
    by_cases hp : p0.id = a.numberId
    · rw [if_pos (by simpa using hp)] at hpq
      rw [← hpq]
    · rw [if_neg (by simpa using hp)] at hpq
      rw [← hpq] at hqid
      exact absurd hqid hp
  · intro pn hpn hpnid c hc hcid
    rw [hok]
    simp only [hrel]
    have hq : ({ pn with available := true } : PhoneNumber) ∈
        availableMatches
          (setNumberAvailable
            { s with activations := s.activations.map fun x =>
                if x.id == aid then { x with status := (3 : Int), finishedAt := some now }
                else x }
            a.numberId true)
          c.code pn.operator := by
      unfold availableMatches
      rw [List.mem_filter]
      constructor
      · show _ ∈ s.phoneNumbers.map fun p =>
          if p.id == a.numberId then { p with available := true } else p
        have hmm := List.mem_map_of_mem
          (f := fun p : PhoneNumber =>
            if p.id == a.numberId then { p with available := true } else p) hpn
        simpa [hpnid] using hmm
      · simp only [Bool.and_eq_true, List.any_eq_true]
        exact ⟨⟨⟨c, hc, by simp [hcid]⟩, by simp⟩, by simp⟩
    obtain ⟨k, hk⟩ := getAvailableNumber_of_mem hq
    exact ⟨k, { pn with available := true }, hk, rfl, rfl⟩
  · intro st hst
    rw [handleFinishActivation_ok s ⟨aid, st⟩ now hcheck]
    rw [if_neg (fun hcon : (st == 3) = true => hst (by simpa using hcon))]

/-- Witness for claim C6: finishing activation 1 of the allocated demo pool
with status 3 frees number row 1 and makes 79000000001 allocatable again. -/
theorem terminal_finish_releases_number_witness :
    allocStore.activations.find? (fun x => x.id == 1) = some ⟨1, 1, 1, 0, 20, 0, none⟩ ∧
    ((handleFinishActivation allocStore ⟨1, 3⟩ 9).fst = .success ∧
      (∀ q ∈ (handleFinishActivation allocStore ⟨1, 3⟩ 9).snd.phoneNumbers,
        q.id = 1 → q.available = true) ∧
      (∀ pn ∈ allocStore.phoneNumbers, pn.id = 1 →
        ∀ c ∈ allocStore.countries, c.id = pn.countryId →
          ∃ k q, getAvailableNumber (handleFinishActivation allocStore ⟨1, 3⟩ 9).snd
              c.code pn.operator k = some q ∧ q.id = pn.id ∧ q.number = pn.number) ∧
      (∀ st : Int, st ≠ 3 →
        (handleFinishActivation allocStore ⟨1, st⟩ 9).snd.phoneNumbers
          = allocStore.phoneNumbers)) :=
  ⟨by decide,
    terminal_finish_releases_number allocStore 1 9 ⟨1, 1, 1, 0, 20, 0, none⟩ (by decide)⟩

end SmsApi
